import Mathlib

set_option maxHeartbeats 1600000

/-!
Shallow embedding of the core of the spacecraft-dynamics-control repository:
rotation matrices, quaternion algebra, reference frames, rigid-body attitude
dynamics and Cartesian/orbital-element conversions, together with theorems
checking the specification claims against these definitions.

Real-valued numpy arithmetic is embedded as exact arithmetic over the reals;
Python exceptions (ValueError, numpy.linalg.LinAlgError) are embedded as an
Except error channel carrying the exception kind and message.
-/

noncomputable section

open Real Classical

/-- Python exception surface of the numerical core: ValueError and
numpy.linalg.LinAlgError, each with its message. -/
inductive PyErr where
  | valueError (msg : String) : PyErr
  | linAlgError (msg : String) : PyErr

/-- Discriminates the success constructor of an Except value. -/
def isOkE {e a : Type} (v : Except e a) : Bool :=
  match v with
  | .ok _ => true
  | .error _ => false

/-- A 3-vector over the reals (a numpy array of length 3). -/
@[ext] structure Vec3 where
  x : ℝ
  y : ℝ
  z : ℝ

/-- Componentwise sum of 3-vectors. -/
def Vec3.add (a b : Vec3) : Vec3 := ⟨a.x + b.x, a.y + b.y, a.z + b.z⟩

/-- Componentwise difference of 3-vectors. -/
def Vec3.sub (a b : Vec3) : Vec3 := ⟨a.x - b.x, a.y - b.y, a.z - b.z⟩

/-- Componentwise negation of a 3-vector. -/
def Vec3.neg (a : Vec3) : Vec3 := ⟨-a.x, -a.y, -a.z⟩

/-- Scalar multiple of a 3-vector. -/
def Vec3.smul (s : ℝ) (a : Vec3) : Vec3 := ⟨s * a.x, s * a.y, s * a.z⟩

/-- Componentwise division of a 3-vector by a scalar. -/
def Vec3.sdiv (a : Vec3) (s : ℝ) : Vec3 := ⟨a.x / s, a.y / s, a.z / s⟩

/-- np.dot on 3-vectors. -/
def dot (a b : Vec3) : ℝ := a.x * b.x + a.y * b.y + a.z * b.z

/-- np.cross on 3-vectors. -/
def cross (a b : Vec3) : Vec3 :=
  ⟨a.y * b.z - a.z * b.y, a.z * b.x - a.x * b.z, a.x * b.y - a.y * b.x⟩

/-- np.linalg.norm on 3-vectors. -/
def vnorm (a : Vec3) : ℝ := Real.sqrt (a.x ^ 2 + a.y ^ 2 + a.z ^ 2)

/-- A 3x3 real matrix, row major (m<row><col>). -/
@[ext] structure Mat3 where
  m00 : ℝ
  m01 : ℝ
  m02 : ℝ
  m10 : ℝ
  m11 : ℝ
  m12 : ℝ
  m20 : ℝ
  m21 : ℝ
  m22 : ℝ

/-- The 3x3 identity matrix (np.eye(3)). -/
def Mat3.eye : Mat3 := ⟨1, 0, 0, 0, 1, 0, 0, 0, 1⟩

/-- Matrix product of 3x3 matrices. -/
def Mat3.mul (a b : Mat3) : Mat3 :=
  ⟨a.m00 * b.m00 + a.m01 * b.m10 + a.m02 * b.m20,
   a.m00 * b.m01 + a.m01 * b.m11 + a.m02 * b.m21,
   a.m00 * b.m02 + a.m01 * b.m12 + a.m02 * b.m22,
   a.m10 * b.m00 + a.m11 * b.m10 + a.m12 * b.m20,
   a.m10 * b.m01 + a.m11 * b.m11 + a.m12 * b.m21,
   a.m10 * b.m02 + a.m11 * b.m12 + a.m12 * b.m22,
   a.m20 * b.m00 + a.m21 * b.m10 + a.m22 * b.m20,
   a.m20 * b.m01 + a.m21 * b.m11 + a.m22 * b.m21,
   a.m20 * b.m02 + a.m21 * b.m12 + a.m22 * b.m22⟩

/-- Matrix transpose. -/
def Mat3.transpose (a : Mat3) : Mat3 :=
  ⟨a.m00, a.m10, a.m20, a.m01, a.m11, a.m21, a.m02, a.m12, a.m22⟩

/-- Matrix-vector product. -/
def Mat3.mulVec (a : Mat3) (v : Vec3) : Vec3 :=
  ⟨a.m00 * v.x + a.m01 * v.y + a.m02 * v.z,
   a.m10 * v.x + a.m11 * v.y + a.m12 * v.z,
   a.m20 * v.x + a.m21 * v.y + a.m22 * v.z⟩

/-- Matrix trace. -/
def Mat3.trace (a : Mat3) : ℝ := a.m00 + a.m11 + a.m22

/-- Determinant of a 3x3 matrix. -/
def Mat3.det (a : Mat3) : ℝ :=
  a.m00 * (a.m11 * a.m22 - a.m12 * a.m21)
    - a.m01 * (a.m10 * a.m22 - a.m12 * a.m20)
    + a.m02 * (a.m10 * a.m21 - a.m11 * a.m20)

/-- Adjugate (transposed cofactor matrix) of a 3x3 matrix. -/
def Mat3.adjugate (a : Mat3) : Mat3 :=
  ⟨a.m11 * a.m22 - a.m12 * a.m21, a.m02 * a.m21 - a.m01 * a.m22, a.m01 * a.m12 - a.m02 * a.m11,
   a.m12 * a.m20 - a.m10 * a.m22, a.m00 * a.m22 - a.m02 * a.m20, a.m02 * a.m10 - a.m00 * a.m12,
   a.m10 * a.m21 - a.m11 * a.m20, a.m01 * a.m20 - a.m00 * a.m21, a.m00 * a.m11 - a.m01 * a.m10⟩

/-- Scalar multiple of a 3x3 matrix. -/
def Mat3.smulM (s : ℝ) (a : Mat3) : Mat3 :=
  ⟨s * a.m00, s * a.m01, s * a.m02, s * a.m10, s * a.m11, s * a.m12,
   s * a.m20, s * a.m21, s * a.m22⟩

/-- Matrix inverse of an invertible 3x3 matrix (np.linalg.inv); on a singular
matrix it yields a junk value, and every embedded call site guards it with the
determinant test that models the LinAlgError numpy raises there. -/
def Mat3.inv (a : Mat3) : Mat3 := Mat3.smulM (1 / a.det) a.adjugate

/-- The matrix whose columns are the three given vectors (np.column_stack). -/
def Mat3.ofCols (c0 c1 c2 : Vec3) : Mat3 :=
  ⟨c0.x, c1.x, c2.x, c0.y, c1.y, c2.y, c0.z, c1.z, c2.z⟩

/-- np.allclose with the default rtol=1e-5 on a pair of reals:
|x - y| <= atol + rtol * |y|. -/
def closeTo (atol x y : ℝ) : Prop := |x - y| ≤ atol + 1e-5 * |y|

/-- np.allclose(A, B, atol) on 3x3 matrices, entrywise. -/
def Mat3.allclose (atol : ℝ) (a b : Mat3) : Prop :=
  closeTo atol a.m00 b.m00 ∧ closeTo atol a.m01 b.m01 ∧ closeTo atol a.m02 b.m02 ∧
  closeTo atol a.m10 b.m10 ∧ closeTo atol a.m11 b.m11 ∧ closeTo atol a.m12 b.m12 ∧
  closeTo atol a.m20 b.m20 ∧ closeTo atol a.m21 b.m21 ∧ closeTo atol a.m22 b.m22

/-- A quaternion [q0, q1, q2, q3], scalar-first convention. -/
@[ext] structure Quat where
  q0 : ℝ
  q1 : ℝ
  q2 : ℝ
  q3 : ℝ

/-- Scalar multiple of a quaternion. -/
def Quat.smulQ (s : ℝ) (q : Quat) : Quat := ⟨s * q.q0, s * q.q1, s * q.q2, s * q.q3⟩

/-- Negation of a quaternion. -/
def Quat.negQ (q : Quat) : Quat := ⟨-q.q0, -q.q1, -q.q2, -q.q3⟩

/-- np.linalg.norm of a quaternion. -/
def qnorm (q : Quat) : ℝ := Real.sqrt (q.q0 ^ 2 + q.q1 ^ 2 + q.q2 ^ 2 + q.q3 ^ 2)

/-- np.arctan2(y, x). -/
def atan2 (y x : ℝ) : ℝ := Complex.arg ⟨x, y⟩

/-- np.degrees: radians to degrees. -/
def degrees (x : ℝ) : ℝ := x * 180 / π

namespace RotationMatrices

/-- RotationMatrices.rx: rotation matrix about the X axis. -/
def rx (theta : ℝ) : Mat3 :=
  ⟨1, 0, 0,
   0, Real.cos theta, -Real.sin theta,
   0, Real.sin theta, Real.cos theta⟩

/-- RotationMatrices.ry: rotation matrix about the Y axis. -/
def ry (theta : ℝ) : Mat3 :=
  ⟨Real.cos theta, 0, Real.sin theta,
   0, 1, 0,
   -Real.sin theta, 0, Real.cos theta⟩

/-- RotationMatrices.rz: rotation matrix about the Z axis. -/
def rz (theta : ℝ) : Mat3 :=
  ⟨Real.cos theta, -Real.sin theta, 0,
   Real.sin theta, Real.cos theta, 0,
   0, 0, 1⟩

/-- The axis_map of RotationMatrices.euler_sequence: character of the sequence
to the corresponding elementary rotation applied to the corresponding angle of
the tuple (phi, theta, psi); characters outside 1/2/3 are rejected before this
map is consulted, the identity default is unreachable. -/
def axisRot (angles : ℝ × ℝ × ℝ) (c : Char) : Mat3 :=
  if c = '1' then rx angles.1
  else if c = '2' then ry angles.2.1
  else if c = '3' then rz angles.2.2
  else Mat3.eye

/-- RotationMatrices.euler_sequence: composed rotation matrix for an Euler
(Tait-Bryan) axis sequence; raises ValueError when the sequence does not have
exactly 3 characters or contains an axis character outside 1/2/3. The
composition multiplies the per-axis rotations over the reversed sequence. -/
def euler_sequence (angles : ℝ × ℝ × ℝ) (sequence : String) : Except PyErr Mat3 :=
  if sequence.length ≠ 3 then
    .error (.valueError "La secuencia debe tener exactamente 3 caracteres")
  else if sequence.toList.all (fun c => c == '1' || c == '2' || c == '3') then
    .ok (sequence.toList.reverse.foldl
      (fun rotation c => Mat3.mul (axisRot angles c) rotation) Mat3.eye)
  else .error (.valueError "Eje no valido. Use 1, 2, o 3")

/-- RotationMatrices.is_rotation_matrix with the default tolerance 1e-6:
orthogonality via np.allclose(R.T @ R, I, atol=1e-6) and a proper determinant
via |det R - 1| < 1e-6. -/
def is_rotation_matrix (r : Mat3) : Prop :=
  Mat3.allclose 1e-6 (Mat3.mul (Mat3.transpose r) r) Mat3.eye ∧ |Mat3.det r - 1| < 1e-6

end RotationMatrices

namespace QuaternionOperations

/-- QuaternionOperations.normalize: componentwise division by the norm; raises
ValueError on the zero quaternion. -/
def normalize (q : Quat) : Except PyErr Quat :=
  if qnorm q = 0 then .error (.valueError "No se puede normalizar un cuaternion cero")
  else .ok ⟨q.q0 / qnorm q, q.q1 / qnorm q, q.q2 / qnorm q, q.q3 / qnorm q⟩

/-- The direction-cosine matrix built by QuaternionOperations.to_rotation_matrix
from an already-normalized quaternion. -/
def quatMatrix (q : Quat) : Mat3 :=
  ⟨1 - 2 * (q.q2 ^ 2 + q.q3 ^ 2), 2 * (q.q1 * q.q2 - q.q0 * q.q3), 2 * (q.q1 * q.q3 + q.q0 * q.q2),
   2 * (q.q1 * q.q2 + q.q0 * q.q3), 1 - 2 * (q.q1 ^ 2 + q.q3 ^ 2), 2 * (q.q2 * q.q3 - q.q0 * q.q1),
   2 * (q.q1 * q.q3 - q.q0 * q.q2), 2 * (q.q2 * q.q3 + q.q0 * q.q1), 1 - 2 * (q.q1 ^ 2 + q.q2 ^ 2)⟩

/-- QuaternionOperations.to_rotation_matrix: normalizes the quaternion and
builds the direction-cosine matrix. -/
def to_rotation_matrix (q : Quat) : Except PyErr Mat3 :=
  Except.map quatMatrix (normalize q)

/-- QuaternionOperations.from_rotation_matrix: validity check followed by
Shepperd branch selection on the trace and the dominant diagonal entry, then a
final normalization. -/
def from_rotation_matrix (r : Mat3) : Except PyErr Quat :=
  if RotationMatrices.is_rotation_matrix r then
    if 0 < Mat3.trace r then
      normalize ⟨0.25 * (Real.sqrt (Mat3.trace r + 1) * 2),
        (r.m21 - r.m12) / (Real.sqrt (Mat3.trace r + 1) * 2),
        (r.m02 - r.m20) / (Real.sqrt (Mat3.trace r + 1) * 2),
        (r.m10 - r.m01) / (Real.sqrt (Mat3.trace r + 1) * 2)⟩
    else if r.m00 > r.m11 ∧ r.m00 > r.m22 then
      normalize ⟨(r.m21 - r.m12) / (Real.sqrt (1 + r.m00 - r.m11 - r.m22) * 2),
        0.25 * (Real.sqrt (1 + r.m00 - r.m11 - r.m22) * 2),
        (r.m01 + r.m10) / (Real.sqrt (1 + r.m00 - r.m11 - r.m22) * 2),
        (r.m02 + r.m20) / (Real.sqrt (1 + r.m00 - r.m11 - r.m22) * 2)⟩
    else if r.m11 > r.m22 then
      normalize ⟨(r.m02 - r.m20) / (Real.sqrt (1 + r.m11 - r.m00 - r.m22) * 2),
        (r.m01 + r.m10) / (Real.sqrt (1 + r.m11 - r.m00 - r.m22) * 2),
        0.25 * (Real.sqrt (1 + r.m11 - r.m00 - r.m22) * 2),
        (r.m12 + r.m21) / (Real.sqrt (1 + r.m11 - r.m00 - r.m22) * 2)⟩
    else
      normalize ⟨(r.m10 - r.m01) / (Real.sqrt (1 + r.m22 - r.m00 - r.m11) * 2),
        (r.m02 + r.m20) / (Real.sqrt (1 + r.m22 - r.m00 - r.m11) * 2),
        (r.m12 + r.m21) / (Real.sqrt (1 + r.m22 - r.m00 - r.m11) * 2),
        0.25 * (Real.sqrt (1 + r.m22 - r.m00 - r.m11) * 2)⟩
  else .error (.valueError "La matriz de entrada no es una matriz de rotacion valida")

/-- QuaternionOperations.multiply: Hamilton product q1 x q2. -/
def multiply (a b : Quat) : Quat :=
  ⟨a.q0 * b.q0 - a.q1 * b.q1 - a.q2 * b.q2 - a.q3 * b.q3,
   a.q0 * b.q1 + a.q1 * b.q0 + a.q2 * b.q3 - a.q3 * b.q2,
   a.q0 * b.q2 - a.q1 * b.q3 + a.q2 * b.q0 + a.q3 * b.q1,
   a.q0 * b.q3 + a.q1 * b.q2 - a.q2 * b.q1 + a.q3 * b.q0⟩

end QuaternionOperations

namespace ReferenceFrames

/-- ReferenceFrames.eci_to_lvlh: ECI to LVLH transformation matrix whose
columns are the radial, transverse and orbit-normal unit vectors; raises
ValueError on a zero position or on collinear position and velocity. -/
def eci_to_lvlh (r_eci v_eci : Vec3) : Except PyErr Mat3 :=
  if vnorm r_eci = 0 then
    .error (.valueError "El vector posicion no puede ser cero")
  else if vnorm (cross r_eci v_eci) = 0 then
    .error (.valueError "Los vectores posicion y velocidad son colineales")
  else
    let r_hat := Vec3.sdiv r_eci (vnorm r_eci)
    let h_hat := Vec3.sdiv (cross r_eci v_eci) (vnorm (cross r_eci v_eci))
    .ok (Mat3.ofCols r_hat (cross h_hat r_hat) h_hat)

end ReferenceFrames

namespace RigidBodyDynamics

/-- RigidBodyDynamics.euler_equations: angular acceleration
I_inv @ (torque - omega x (I @ omega)) with the torque defaulting to the zero
vector; np.linalg.inv raises LinAlgError on a singular inertia tensor. -/
def euler_equations (omega : Vec3) (inertia : Mat3) (torque : Option Vec3) :
    Except PyErr Vec3 :=
  if Mat3.det inertia = 0 then .error (.linAlgError "Singular matrix")
  else
    .ok (Mat3.mulVec (Mat3.inv inertia)
      (Vec3.sub (torque.getD ⟨0, 0, 0⟩) (cross omega (Mat3.mulVec inertia omega))))

end RigidBodyDynamics

namespace PrecisePointingSimulator

/-- PrecisePointingSimulator.quaternion_kinematics: 0.5 * Omega(w) @ q with the
scalar-first 4x4 skew matrix Omega built from the angular velocity. -/
def quaternion_kinematics (q : Quat) (w : Vec3) : Quat :=
  Quat.smulQ 0.5
    ⟨0 * q.q0 - w.x * q.q1 - w.y * q.q2 - w.z * q.q3,
     w.x * q.q0 + 0 * q.q1 + w.z * q.q2 - w.y * q.q3,
     w.y * q.q0 - w.z * q.q1 + 0 * q.q2 + w.x * q.q3,
     w.z * q.q0 + w.y * q.q1 - w.x * q.q2 + 0 * q.q3⟩

/-- PrecisePointingSimulator.attitude_dynamics: state derivative of
(quaternion, angular velocity). The stochastic disturbance_torque model is
abstracted as an explicit function parameter; np.linalg.inv raises LinAlgError
on a singular inertia tensor. The quaternion block multiplies the
quaternion_kinematics output by a further factor 0.5. -/
def attitude_dynamics (inertia : Mat3) (disturbance : ℝ → Vec3) (t : ℝ)
    (state : Quat × Vec3) : Except PyErr (Quat × Vec3) :=
  if Mat3.det inertia = 0 then .error (.linAlgError "Singular matrix")
  else
    let q := state.1
    let w := state.2
    let q_dot := Quat.smulQ 0.5 (quaternion_kinematics q w)
    let w_dot := Mat3.mulVec (Mat3.inv inertia)
      (Vec3.add (Vec3.neg (cross w (Mat3.mulVec inertia w))) (disturbance t))
    .ok (q_dot, w_dot)

end PrecisePointingSimulator

namespace AxisymmetricSpacecraft

/-- Nutation amplitude A = sqrt(omega1_0^2 + omega2_0^2) of
AxisymmetricSpacecraft.analytical_solution. -/
def ampA (omega0 : Vec3) : ℝ := Real.sqrt (omega0.x ^ 2 + omega0.y ^ 2)

/-- Body-frame nutation rate Omega = omega3_0 * (I_s - I_t) / I_t of
AxisymmetricSpacecraft.analytical_solution. -/
def nutationRate (i_t i_s : ℝ) (omega0 : Vec3) : ℝ := omega0.z * (i_s - i_t) / i_t

/-- Initial phase phi_0 = arctan2(omega2_0, omega1_0) of
AxisymmetricSpacecraft.analytical_solution. -/
def phi_0 (omega0 : Vec3) : ℝ := atan2 omega0.y omega0.x

/-- First transverse component omega1(t) = A cos(Omega t + phi_0) of the
analytical solution. -/
def omega1 (i_t i_s : ℝ) (omega0 : Vec3) (t : ℝ) : ℝ :=
  ampA omega0 * Real.cos (nutationRate i_t i_s omega0 * t + phi_0 omega0)

/-- Second transverse component omega2(t) = A sin(Omega t + phi_0) of the
analytical solution. -/
def omega2 (i_t i_s : ℝ) (omega0 : Vec3) (t : ℝ) : ℝ :=
  ampA omega0 * Real.sin (nutationRate i_t i_s omega0 * t + phi_0 omega0)

/-- Spin component omega3(t) = omega3_0 of the analytical solution. -/
def omega3 (omega0 : Vec3) (_t : ℝ) : ℝ := omega0.z

end AxisymmetricSpacecraft

/-- Orbital-element dictionary returned by
CoordinateTransformations.cartesian_to_orbital_elements (angles in radians;
the infinite parabolic semi-major axis is the none case). -/
structure CTElements where
  semi_major_axis : Option ℝ
  eccentricity : ℝ
  inclination : ℝ
  raan : ℝ
  argument_of_perigee : ℝ
  true_anomaly : ℝ

/-- Orbital-element dictionary returned by
OrbitalElements.cartesian_to_orbital (angles in degrees; infinite semi-major
axis and period are the none cases). -/
structure OEElements where
  semi_major_axis : Option ℝ
  eccentricity : ℝ
  inclination : ℝ
  raan : ℝ
  argument_perigee : ℝ
  true_anomaly : ℝ
  angular_momentum : ℝ
  energy : ℝ
  period : Option ℝ

namespace CoordinateTransformations

/-- Specific angular momentum h = r x v. -/
def h_vec (r v : Vec3) : Vec3 := cross r v

/-- Eccentricity vector ((|v|^2 - mu/|r|) r - (r.v) v) / mu. -/
def e_vec (r v : Vec3) (mu : ℝ) : Vec3 :=
  Vec3.sdiv (Vec3.sub (Vec3.smul (vnorm v ^ 2 - mu / vnorm r) r) (Vec3.smul (dot r v) v)) mu

/-- Scalar eccentricity e = |e_vec|. -/
def eccentricity (r v : Vec3) (mu : ℝ) : ℝ := vnorm (e_vec r v mu)

/-- Specific orbital energy |v|^2/2 - mu/|r|. -/
def energy (r v : Vec3) (mu : ℝ) : ℝ := vnorm v ^ 2 / 2 - mu / vnorm r

/-- Semi-major axis -mu/(2 energy), infinite (none) when |energy| < 1e-10. -/
def semi_major_axis (r v : Vec3) (mu : ℝ) : Option ℝ :=
  if |energy r v mu| < 1e-10 then none else some (-mu / (2 * energy r v mu))

/-- Inclination arccos(h_z / |h|). -/
def inclination (r v : Vec3) : ℝ := arccos ((h_vec r v).z / vnorm (h_vec r v))

/-- Node vector n = z_hat x h. -/
def node_vec (r v : Vec3) : Vec3 := cross ⟨0, 0, 1⟩ (h_vec r v)

/-- RAAN, defined as 0 on an equatorial orbit (|n| = 0), with the quadrant
flipped when n_y < 0. -/
def raan (r v : Vec3) : ℝ :=
  if vnorm (node_vec r v) = 0 then 0
  else if (node_vec r v).y < 0 then
    2 * π - arccos ((node_vec r v).x / vnorm (node_vec r v))
  else arccos ((node_vec r v).x / vnorm (node_vec r v))

/-- Argument of perigee, defined as 0 only when |n| = 0, with the quadrant
flipped when the z component of the eccentricity vector is negative. -/
def argument_of_perigee (r v : Vec3) (mu : ℝ) : ℝ :=
  if vnorm (node_vec r v) = 0 then 0
  else if (e_vec r v mu).z < 0 then
    2 * π - arccos (dot (node_vec r v) (e_vec r v mu) / (vnorm (node_vec r v) * eccentricity r v mu))
  else arccos (dot (node_vec r v) (e_vec r v mu) / (vnorm (node_vec r v) * eccentricity r v mu))

/-- True anomaly, defined as 0 only when e = 0 exactly, with the quadrant
flipped when r.v < 0. -/
def true_anomaly (r v : Vec3) (mu : ℝ) : ℝ :=
  if eccentricity r v mu = 0 then 0
  else if dot r v < 0 then
    2 * π - arccos (dot (e_vec r v mu) r / (eccentricity r v mu * vnorm r))
  else arccos (dot (e_vec r v mu) r / (eccentricity r v mu * vnorm r))

/-- CoordinateTransformations.cartesian_to_orbital_elements. -/
def cartesian_to_orbital_elements (r v : Vec3) (mu : ℝ) : CTElements :=
  ⟨semi_major_axis r v mu, eccentricity r v mu, inclination r v, raan r v,
   argument_of_perigee r v mu, true_anomaly r v mu⟩

end CoordinateTransformations

namespace OrbitalElements

/-- Specific angular momentum h = r x v. -/
def h_vec (r v : Vec3) : Vec3 := cross r v

/-- Eccentricity vector ((|v|^2 - mu/|r|) r - (r.v) v) / mu. -/
def e_vec (r v : Vec3) (mu : ℝ) : Vec3 :=
  Vec3.sdiv (Vec3.sub (Vec3.smul (vnorm v ^ 2 - mu / vnorm r) r) (Vec3.smul (dot r v) v)) mu

/-- Scalar eccentricity e = |e_vec|. -/
def eccentricity (r v : Vec3) (mu : ℝ) : ℝ := vnorm (e_vec r v mu)

/-- Specific orbital energy |v|^2/2 - mu/|r|. -/
def energy (r v : Vec3) (mu : ℝ) : ℝ := vnorm v ^ 2 / 2 - mu / vnorm r

/-- Semi-major axis -mu/(2 energy), infinite (none) when |energy| < 1e-10. -/
def semi_major_axis (r v : Vec3) (mu : ℝ) : Option ℝ :=
  if |energy r v mu| < 1e-10 then none else some (-mu / (2 * energy r v mu))

/-- Inclination arccos(h_z / |h|). -/
def inclination (r v : Vec3) : ℝ := arccos ((h_vec r v).z / vnorm (h_vec r v))

/-- Node vector n = z_hat x h. -/
def node_vec (r v : Vec3) : Vec3 := cross ⟨0, 0, 1⟩ (h_vec r v)

/-- RAAN, defined as 0 on an equatorial orbit (|n| = 0), with the quadrant
flipped when n_y < 0. -/
def raan (r v : Vec3) : ℝ :=
  if vnorm (node_vec r v) = 0 then 0
  else if (node_vec r v).y < 0 then
    2 * π - arccos ((node_vec r v).x / vnorm (node_vec r v))
  else arccos ((node_vec r v).x / vnorm (node_vec r v))

/-- Argument of perigee, defined as 0 when |n| = 0 or e < 1e-10, with the
quadrant flipped when the z component of the eccentricity vector is
negative. -/
def argument_perigee (r v : Vec3) (mu : ℝ) : ℝ :=
  if vnorm (node_vec r v) = 0 ∨ eccentricity r v mu < 1e-10 then 0
  else if (e_vec r v mu).z < 0 then
    2 * π - arccos (dot (node_vec r v) (e_vec r v mu) / (vnorm (node_vec r v) * eccentricity r v mu))
  else arccos (dot (node_vec r v) (e_vec r v mu) / (vnorm (node_vec r v) * eccentricity r v mu))

/-- True anomaly, defined as 0 when e < 1e-10, with the quadrant flipped when
r.v < 0. -/
def true_anomaly (r v : Vec3) (mu : ℝ) : ℝ :=
  if eccentricity r v mu < 1e-10 then 0
  else if dot r v < 0 then
    2 * π - arccos (dot (e_vec r v mu) r / (eccentricity r v mu * vnorm r))
  else arccos (dot (e_vec r v mu) r / (eccentricity r v mu * vnorm r))

/-- Orbital period 2 pi sqrt(a^3/mu), infinite (none) unless the semi-major
axis is finite and positive. -/
def period (r v : Vec3) (mu : ℝ) : Option ℝ :=
  match semi_major_axis r v mu with
  | none => none
  | some a => if 0 < a then some (2 * π * Real.sqrt (a ^ 3 / mu)) else none

/-- OrbitalElements.cartesian_to_orbital (angles converted to degrees). -/
def cartesian_to_orbital (r v : Vec3) (mu : ℝ) : OEElements :=
  ⟨semi_major_axis r v mu, eccentricity r v mu, degrees (inclination r v),
   degrees (raan r v), degrees (argument_perigee r v mu), degrees (true_anomaly r v mu),
   vnorm (h_vec r v), energy r v mu, period r v mu⟩

/-- OrbitalElements.classify_orbit: classification by eccentricity
thresholds. -/
def classify_orbit (elements : OEElements) : String :=
  if elements.eccentricity < 0.001 then "Circular"
  else if elements.eccentricity < 1.0 then "Elliptical"
  else if |elements.eccentricity - 1.0| < 0.001 then "Parabolic"
  else "Hyperbolic"

end OrbitalElements

/-! ## Helper lemmas -/

theorem sq_vnorm (a : Vec3) : vnorm a ^ 2 = a.x ^ 2 + a.y ^ 2 + a.z ^ 2 :=
  Real.sq_sqrt (by positivity)

theorem vnorm_nonneg (a : Vec3) : 0 ≤ vnorm a := Real.sqrt_nonneg _

theorem vnorm_eq_zero_iff (a : Vec3) : vnorm a = 0 ↔ a = ⟨0, 0, 0⟩ := by
  unfold vnorm
  rw [Real.sqrt_eq_zero (by positivity)]
  constructor
  · intro h
    have hx : a.x = 0 := by nlinarith [sq_nonneg a.x, sq_nonneg a.y, sq_nonneg a.z]
    have hy : a.y = 0 := by nlinarith [sq_nonneg a.x, sq_nonneg a.y, sq_nonneg a.z]
    have hz : a.z = 0 := by nlinarith [sq_nonneg a.x, sq_nonneg a.y, sq_nonneg a.z]
    ext <;> assumption
  · intro h
    rw [h]
    norm_num

theorem qnorm_sumsq (q : Quat) (h : qnorm q = 1) :
    q.q0 ^ 2 + q.q1 ^ 2 + q.q2 ^ 2 + q.q3 ^ 2 = 1 :=
  Real.sqrt_eq_one.mp h

theorem mat3_inv_cancel (a : Mat3) (h : Mat3.det a ≠ 0) (v : Vec3) :
    Mat3.mulVec a (Mat3.mulVec (Mat3.inv a) v) = v := by
  have hd := h
  unfold Mat3.det at hd
  unfold Mat3.mulVec Mat3.inv Mat3.smulM Mat3.adjugate Mat3.det
  ext <;> (field_simp; ring)

theorem mat3_mul_eye (a : Mat3) : Mat3.mul a Mat3.eye = a := by
  unfold Mat3.mul Mat3.eye
  ext <;> ring

theorem mat3_mul_assoc (a b c : Mat3) :
    Mat3.mul (Mat3.mul a b) c = Mat3.mul a (Mat3.mul b c) := by
  unfold Mat3.mul
  ext <;> ring

theorem mat3_transpose_ofCols_mul (c0 c1 c2 : Vec3) :
    Mat3.mul (Mat3.transpose (Mat3.ofCols c0 c1 c2)) (Mat3.ofCols c0 c1 c2)
      = ⟨dot c0 c0, dot c0 c1, dot c0 c2, dot c1 c0, dot c1 c1, dot c1 c2,
         dot c2 c0, dot c2 c1, dot c2 c2⟩ := by
  unfold Mat3.mul Mat3.transpose Mat3.ofCols dot
  ext <;> ring

theorem dot_cross_self_1 (x y : Vec3) : dot x (cross x y) = 0 := by
  unfold dot cross; ring

theorem dot_cross_self_2 (x y : Vec3) : dot y (cross x y) = 0 := by
  unfold dot cross; ring

theorem dot_cross_self_3 (x y : Vec3) : dot (cross x y) x = 0 := by
  unfold dot cross; ring

theorem dot_cross_self_4 (x y : Vec3) : dot (cross x y) y = 0 := by
  unfold dot cross; ring

theorem dot_cross_sq (x y : Vec3) :
    dot (cross x y) (cross x y) = dot x x * dot y y - dot x y ^ 2 := by
  unfold dot cross; ring

theorem dot_sdiv (x y : Vec3) (s t : ℝ) :
    dot (Vec3.sdiv x s) (Vec3.sdiv y t) = dot x y / (s * t) := by
  unfold dot Vec3.sdiv
  rw [div_mul_div_comm, div_mul_div_comm, div_mul_div_comm, div_add_div_same, div_add_div_same]

theorem cross_sdiv (x y : Vec3) (s t : ℝ) :
    cross (Vec3.sdiv x s) (Vec3.sdiv y t) = Vec3.sdiv (cross x y) (s * t) := by
  unfold cross Vec3.sdiv
  ext <;> (field_simp; ring)

theorem dot_self_eq_sq_vnorm (a : Vec3) : dot a a = vnorm a ^ 2 := by
  rw [sq_vnorm]
  unfold dot
  ring

theorem oe_record_ecc (r v : Vec3) (mu : ℝ) :
    (OrbitalElements.cartesian_to_orbital r v mu).eccentricity
      = OrbitalElements.eccentricity r v mu := rfl

theorem oe_record_raan (r v : Vec3) (mu : ℝ) :
    (OrbitalElements.cartesian_to_orbital r v mu).raan
      = degrees (OrbitalElements.raan r v) := rfl

theorem oe_record_argp (r v : Vec3) (mu : ℝ) :
    (OrbitalElements.cartesian_to_orbital r v mu).argument_perigee
      = degrees (OrbitalElements.argument_perigee r v mu) := rfl

theorem oe_record_nu (r v : Vec3) (mu : ℝ) :
    (OrbitalElements.cartesian_to_orbital r v mu).true_anomaly
      = degrees (OrbitalElements.true_anomaly r v mu) := rfl

theorem oe_record_incl (r v : Vec3) (mu : ℝ) :
    (OrbitalElements.cartesian_to_orbital r v mu).inclination
      = degrees (OrbitalElements.inclination r v) := rfl

theorem oe_record_sma (r v : Vec3) (mu : ℝ) :
    (OrbitalElements.cartesian_to_orbital r v mu).semi_major_axis
      = OrbitalElements.semi_major_axis r v mu := rfl

theorem oe_record_period (r v : Vec3) (mu : ℝ) :
    (OrbitalElements.cartesian_to_orbital r v mu).period
      = OrbitalElements.period r v mu := rfl

theorem ct_record_ecc (r v : Vec3) (mu : ℝ) :
    (CoordinateTransformations.cartesian_to_orbital_elements r v mu).eccentricity
      = CoordinateTransformations.eccentricity r v mu := rfl

theorem ct_record_raan (r v : Vec3) (mu : ℝ) :
    (CoordinateTransformations.cartesian_to_orbital_elements r v mu).raan
      = CoordinateTransformations.raan r v := rfl

theorem ct_record_argp (r v : Vec3) (mu : ℝ) :
    (CoordinateTransformations.cartesian_to_orbital_elements r v mu).argument_of_perigee
      = CoordinateTransformations.argument_of_perigee r v mu := rfl

theorem ct_record_nu (r v : Vec3) (mu : ℝ) :
    (CoordinateTransformations.cartesian_to_orbital_elements r v mu).true_anomaly
      = CoordinateTransformations.true_anomaly r v mu := rfl

theorem degrees_zero : degrees 0 = 0 := by
  unfold degrees
  rw [zero_mul, zero_div]

/-! ## Claim theorems -/

/-- C9: the Hamilton product satisfies |multiply(q1, q2)| = |q1| * |q2|; in
particular the product of two unit quaternions is a unit quaternion. -/
theorem quaternion_multiply_norm (a b : Quat) :
    qnorm (QuaternionOperations.multiply a b) = qnorm a * qnorm b ∧
    (qnorm a = 1 → qnorm b = 1 → qnorm (QuaternionOperations.multiply a b) = 1) := by
  have key : qnorm (QuaternionOperations.multiply a b) = qnorm a * qnorm b := by
    unfold qnorm QuaternionOperations.multiply
    rw [← Real.sqrt_mul (by positivity)]
    congr 1
    ring
  exact ⟨key, fun h1 h2 => by rw [key, h1, h2, mul_one]⟩

theorem quaternion_multiply_norm_witness :
    qnorm (QuaternionOperations.multiply ⟨1, 0, 0, 0⟩ ⟨0, 1, 0, 0⟩) = 1 := by
  have h1 : qnorm (⟨1, 0, 0, 0⟩ : Quat) = 1 := by
    unfold qnorm
    rw [show ((1:ℝ) ^ 2 + 0 ^ 2 + 0 ^ 2 + 0 ^ 2) = 1 by norm_num, Real.sqrt_one]
  have h2 : qnorm (⟨0, 1, 0, 0⟩ : Quat) = 1 := by
    unfold qnorm
    rw [show ((0:ℝ) ^ 2 + 1 ^ 2 + 0 ^ 2 + 0 ^ 2) = 1 by norm_num, Real.sqrt_one]
  exact (quaternion_multiply_norm _ _).2 h1 h2

/-- C1: the quaternion block of PrecisePointingSimulator.attitude_dynamics
multiplies quaternion_kinematics (which is already 0.5 * Omega(w) q) by a
further 0.5, so at q = (1,0,0,0), w = (2,0,0) rad/s it returns the quaternion
rate (0, 1/2, 0, 0) = (1/4) Omega(w) q instead of the quaternion-kinematics
value (1/2) Omega(w) q = (0, 1, 0, 0). -/
theorem attitude_dynamics_quarter_rate :
    PrecisePointingSimulator.attitude_dynamics Mat3.eye (fun _ => ⟨0, 0, 0⟩) 0
        (⟨1, 0, 0, 0⟩, ⟨2, 0, 0⟩) = .ok (⟨0, 1 / 2, 0, 0⟩, ⟨0, 0, 0⟩) ∧
    PrecisePointingSimulator.quaternion_kinematics ⟨1, 0, 0, 0⟩ ⟨2, 0, 0⟩ = ⟨0, 1, 0, 0⟩ ∧
    (⟨0, 1 / 2, 0, 0⟩ : Quat) ≠ ⟨0, 1, 0, 0⟩ := by
  refine ⟨?_, ?_, ?_⟩
  · unfold PrecisePointingSimulator.attitude_dynamics
    rw [if_neg (by unfold Mat3.det Mat3.eye; norm_num)]
    simp only [PrecisePointingSimulator.quaternion_kinematics, Quat.smulQ, Mat3.inv,
      Mat3.mulVec, Mat3.adjugate, Mat3.smulM, Mat3.det, Mat3.eye, Vec3.add, Vec3.neg, cross]
    norm_num
  · unfold PrecisePointingSimulator.quaternion_kinematics Quat.smulQ
    norm_num
  · simp only [ne_eq, Quat.mk.injEq]
    norm_num

/-- C4: euler_equations fails with the numpy singular-matrix error exactly when
the inertia tensor is singular; on success the returned angular acceleration w
is I_inv (tau - omega x (I omega)) and satisfies I w = tau - omega x (I omega),
with the torque defaulting to the zero vector when omitted. -/
theorem euler_equations_spec (omega : Vec3) (inertia : Mat3) (torque : Option Vec3) :
    (RigidBodyDynamics.euler_equations omega inertia torque
        = .error (.linAlgError "Singular matrix") ↔ Mat3.det inertia = 0) ∧
    (∀ w, RigidBodyDynamics.euler_equations omega inertia torque = .ok w →
      w = Mat3.mulVec (Mat3.inv inertia)
            (Vec3.sub (torque.getD ⟨0, 0, 0⟩) (cross omega (Mat3.mulVec inertia omega))) ∧
      Mat3.mulVec inertia w
        = Vec3.sub (torque.getD ⟨0, 0, 0⟩) (cross omega (Mat3.mulVec inertia omega))) ∧
    RigidBodyDynamics.euler_equations omega inertia none
      = RigidBodyDynamics.euler_equations omega inertia (some ⟨0, 0, 0⟩) := by
  unfold RigidBodyDynamics.euler_equations
  by_cases h : Mat3.det inertia = 0
  · simp [h]
  · refine ⟨by simp [h], ?_, by simp⟩
    intro w hw
    rw [if_neg h] at hw
    have hw' : Mat3.mulVec (Mat3.inv inertia)
        (Vec3.sub (torque.getD ⟨0, 0, 0⟩) (cross omega (Mat3.mulVec inertia omega))) = w := by
      injection hw
    subst hw'
    exact ⟨rfl, mat3_inv_cancel inertia h _⟩

/-- C8: at every time the transverse components of the axisymmetric analytical
solution satisfy omega1(t)^2 + omega2(t)^2 = omega1_0^2 + omega2_0^2, the spin
component is the constant omega3_0, the body-frame nutation rate is
omega3_0 (I_s - I_t) / I_t, and when I_t = I_s the nutation rate vanishes so
omega1 and omega2 are constant in time. -/
theorem axisymmetric_analytical_spec (i_t i_s : ℝ) (omega0 : Vec3) (t : ℝ)
    (h : 0 < i_t) :
    AxisymmetricSpacecraft.omega1 i_t i_s omega0 t ^ 2
        + AxisymmetricSpacecraft.omega2 i_t i_s omega0 t ^ 2
      = omega0.x ^ 2 + omega0.y ^ 2 ∧
    AxisymmetricSpacecraft.omega3 omega0 t = omega0.z ∧
    AxisymmetricSpacecraft.nutationRate i_t i_s omega0 = omega0.z * (i_s - i_t) / i_t ∧
    (i_t = i_s →
      AxisymmetricSpacecraft.omega1 i_t i_s omega0 t
          = AxisymmetricSpacecraft.omega1 i_t i_s omega0 0 ∧
      AxisymmetricSpacecraft.omega2 i_t i_s omega0 t
          = AxisymmetricSpacecraft.omega2 i_t i_s omega0 0) := by
  refine ⟨?_, rfl, rfl, ?_⟩
  · have hA : AxisymmetricSpacecraft.ampA omega0 ^ 2 = omega0.x ^ 2 + omega0.y ^ 2 :=
      Real.sq_sqrt (by positivity)
    have key : AxisymmetricSpacecraft.omega1 i_t i_s omega0 t ^ 2
        + AxisymmetricSpacecraft.omega2 i_t i_s omega0 t ^ 2
        = AxisymmetricSpacecraft.ampA omega0 ^ 2
          * (Real.sin (AxisymmetricSpacecraft.nutationRate i_t i_s omega0 * t
              + AxisymmetricSpacecraft.phi_0 omega0) ^ 2
            + Real.cos (AxisymmetricSpacecraft.nutationRate i_t i_s omega0 * t
              + AxisymmetricSpacecraft.phi_0 omega0) ^ 2) := by
      unfold AxisymmetricSpacecraft.omega1 AxisymmetricSpacecraft.omega2
      ring
    rw [key, Real.sin_sq_add_cos_sq, mul_one, hA]
  · intro he
    have h0 : AxisymmetricSpacecraft.nutationRate i_t i_s omega0 = 0 := by
      unfold AxisymmetricSpacecraft.nutationRate
      rw [he, sub_self, mul_zero, zero_div]
    constructor
    · unfold AxisymmetricSpacecraft.omega1
      rw [h0]
      norm_num
    · unfold AxisymmetricSpacecraft.omega2
      rw [h0]
      norm_num

theorem axisymmetric_analytical_spec_witness :
    AxisymmetricSpacecraft.omega1 100 50 ⟨0.1, 0.05, 1⟩ 2 ^ 2
        + AxisymmetricSpacecraft.omega2 100 50 ⟨0.1, 0.05, 1⟩ 2 ^ 2
      = (0.1 : ℝ) ^ 2 + (0.05 : ℝ) ^ 2 ∧
    AxisymmetricSpacecraft.omega3 ⟨0.1, 0.05, 1⟩ 2 = 1 :=
  ⟨(axisymmetric_analytical_spec 100 50 ⟨0.1, 0.05, 1⟩ 2 (by norm_num)).1,
   (axisymmetric_analytical_spec 100 50 ⟨0.1, 0.05, 1⟩ 2 (by norm_num)).2.1⟩

/-- C3 counterexample: euler_sequence succeeds on the sequence "123", which is
different from "321", contradicting the claim that every sequence other than
"321" fails. -/
theorem euler_sequence_accepts_123 :
    isOkE (RotationMatrices.euler_sequence (0, 0, 0) "123") = true := rfl

/-- C3 (amended): euler_sequence fails exactly on sequences whose length is not
3 or containing a character outside 1/2/3; it succeeds on every 3-character
sequence over these axis characters, and on "321" it returns the composition
Rz(psi) Ry(theta) Rx(phi). -/
theorem euler_sequence_amended (phi theta psi : ℝ) (s : String) :
    RotationMatrices.euler_sequence (phi, theta, psi) "321"
      = .ok (Mat3.mul (Mat3.mul (RotationMatrices.rz psi) (RotationMatrices.ry theta))
          (RotationMatrices.rx phi)) ∧
    (s.length = 3 → s.toList.all (fun c => c == '1' || c == '2' || c == '3') = true →
      isOkE (RotationMatrices.euler_sequence (phi, theta, psi) s) = true) ∧
    (s.length ≠ 3 ∨ s.toList.all (fun c => c == '1' || c == '2' || c == '3') = false →
      isOkE (RotationMatrices.euler_sequence (phi, theta, psi) s) = false) := by
  refine ⟨?_, ?_, ?_⟩
  · have base : RotationMatrices.euler_sequence (phi, theta, psi) "321"
        = .ok (Mat3.mul (RotationMatrices.rz psi) (Mat3.mul (RotationMatrices.ry theta)
            (Mat3.mul (RotationMatrices.rx phi) Mat3.eye))) := rfl
    rw [base, mat3_mul_eye, mat3_mul_assoc]
  · intro h1 h2
    unfold RotationMatrices.euler_sequence
    rw [if_neg (by simp [h1]), if_pos h2]
    rfl
  · intro h
    unfold RotationMatrices.euler_sequence
    rcases h with h | h
    · rw [if_pos h]
      rfl
    · by_cases hl : s.length = 3
      · rw [if_neg (by simp [hl]), if_neg (by rw [h]; simp)]
        rfl
      · rw [if_pos hl]
        rfl

theorem euler_sequence_amended_witness :
    isOkE (RotationMatrices.euler_sequence (0, 0, 0) "131") = true ∧
    isOkE (RotationMatrices.euler_sequence (0, 0, 0) "32") = false :=
  ⟨(euler_sequence_amended 0 0 0 "131").2.1 (by decide) (by decide),
   (euler_sequence_amended 0 0 0 "32").2.2 (Or.inl (by decide))⟩

/-- C7: eci_to_lvlh fails exactly when the position is zero or the position and
velocity are collinear (zero angular momentum); on success it returns the
matrix whose columns are the radial unit vector, the transverse unit vector
(h/|h|) x (r/|r|) and the orbit-normal unit vector h/|h|, and that matrix has
orthonormal columns. -/
theorem eci_to_lvlh_spec (r v : Vec3) :
    ((∃ msg, ReferenceFrames.eci_to_lvlh r v = .error msg)
        ↔ (r = ⟨0, 0, 0⟩ ∨ cross r v = ⟨0, 0, 0⟩)) ∧
    (∀ m, ReferenceFrames.eci_to_lvlh r v = .ok m →
      m = Mat3.ofCols (Vec3.sdiv r (vnorm r))
            (cross (Vec3.sdiv (cross r v) (vnorm (cross r v))) (Vec3.sdiv r (vnorm r)))
            (Vec3.sdiv (cross r v) (vnorm (cross r v))) ∧
      Mat3.mul (Mat3.transpose m) m = Mat3.eye) := by
  unfold ReferenceFrames.eci_to_lvlh
  by_cases h1 : vnorm r = 0
  · rw [if_pos h1]
    refine ⟨⟨fun _ => Or.inl ((vnorm_eq_zero_iff r).mp h1), fun _ => ⟨_, rfl⟩⟩, ?_⟩
    intro m hm
    exact absurd hm (by simp)
  · rw [if_neg h1]
    by_cases h2 : vnorm (cross r v) = 0
    · rw [if_pos h2]
      refine ⟨⟨fun _ => Or.inr ((vnorm_eq_zero_iff _).mp h2), fun _ => ⟨_, rfl⟩⟩, ?_⟩
      intro m hm
      exact absurd hm (by simp)
    · rw [if_neg h2]
      constructor
      · constructor
        · intro hc
          rcases hc with ⟨msg, hmsg⟩
          exact absurd hmsg (by simp)
        · intro hc
          rcases hc with hc | hc
          · exact absurd ((vnorm_eq_zero_iff r).mpr hc) h1
          · exact absurd ((vnorm_eq_zero_iff _).mpr hc) h2
      · intro m hm
        have hm' : Mat3.ofCols (Vec3.sdiv r (vnorm r))
            (cross (Vec3.sdiv (cross r v) (vnorm (cross r v))) (Vec3.sdiv r (vnorm r)))
            (Vec3.sdiv (cross r v) (vnorm (cross r v))) = m := by
          injection hm
        subst hm'
        refine ⟨rfl, ?_⟩
        have hrr := dot_self_eq_sq_vnorm r
        have hhh := dot_self_eq_sq_vnorm (cross r v)
        rw [cross_sdiv, mat3_transpose_ofCols_mul]
        have hba : vnorm (cross r v) * vnorm r ≠ 0 := mul_ne_zero h2 h1
        refine Mat3.ext ?_ ?_ ?_ ?_ ?_ ?_ ?_ ?_ ?_ <;> dsimp only [Mat3.eye]
        · rw [dot_sdiv, hrr, pow_two, div_self (mul_ne_zero h1 h1)]
        · rw [dot_sdiv, dot_cross_self_2, zero_div]
        · rw [dot_sdiv, dot_cross_self_1, zero_div]
        · rw [dot_sdiv, dot_cross_self_4, zero_div]
        · rw [dot_sdiv, dot_cross_sq, hrr, hhh, dot_cross_self_3]
          field_simp
          ring
        · rw [dot_sdiv, dot_cross_self_3, zero_div]
        · rw [dot_sdiv, dot_cross_self_3, zero_div]
        · rw [dot_sdiv, dot_cross_self_1, zero_div]
        · rw [dot_sdiv, hhh, pow_two, div_self (mul_ne_zero h2 h2)]

theorem eci_to_lvlh_spec_witness :
    Mat3.mul (Mat3.transpose (Mat3.ofCols ⟨1, 0, 0⟩ ⟨0, 1, 0⟩ ⟨0, 0, 1⟩))
        (Mat3.ofCols ⟨1, 0, 0⟩ ⟨0, 1, 0⟩ ⟨0, 0, 1⟩) = Mat3.eye ∧
    (∃ msg, ReferenceFrames.eci_to_lvlh ⟨0, 0, 0⟩ ⟨1, 0, 0⟩ = .error msg) := by
  constructor
  · have hv1 : vnorm ⟨7000, 0, 0⟩ = 7000 := by
      unfold vnorm
      rw [show ((7000:ℝ) ^ 2 + 0 ^ 2 + 0 ^ 2) = 7000 ^ 2 by norm_num,
        Real.sqrt_sq (by norm_num)]
    have hc : cross ⟨7000, 0, 0⟩ ⟨0, 7.5, 0⟩ = ⟨0, 0, 52500⟩ := by
      unfold cross
      ext <;> norm_num
    have hv2 : vnorm (cross ⟨7000, 0, 0⟩ ⟨0, 7.5, 0⟩) = 52500 := by
      rw [hc]
      unfold vnorm
      rw [show ((0:ℝ) ^ 2 + 0 ^ 2 + 52500 ^ 2) = 52500 ^ 2 by norm_num,
        Real.sqrt_sq (by norm_num)]
    refine ((eci_to_lvlh_spec ⟨7000, 0, 0⟩ ⟨0, 7.5, 0⟩).2 _ ?_).2
    unfold ReferenceFrames.eci_to_lvlh
    rw [if_neg (by rw [hv1]; norm_num), if_neg (by rw [hv2]; norm_num)]
    have : Mat3.ofCols (Vec3.sdiv ⟨7000, 0, 0⟩ (vnorm ⟨7000, 0, 0⟩))
        (cross (Vec3.sdiv (cross ⟨7000, 0, 0⟩ ⟨0, 7.5, 0⟩)
            (vnorm (cross ⟨7000, 0, 0⟩ ⟨0, 7.5, 0⟩)))
          (Vec3.sdiv ⟨7000, 0, 0⟩ (vnorm ⟨7000, 0, 0⟩)))
        (Vec3.sdiv (cross ⟨7000, 0, 0⟩ ⟨0, 7.5, 0⟩)
          (vnorm (cross ⟨7000, 0, 0⟩ ⟨0, 7.5, 0⟩)))
        = Mat3.ofCols ⟨1, 0, 0⟩ ⟨0, 1, 0⟩ ⟨0, 0, 1⟩ := by
      rw [hv1, hv2, hc]
      unfold Mat3.ofCols Vec3.sdiv cross
      ext <;> norm_num
    exact congrArg Except.ok this
  · exact (eci_to_lvlh_spec ⟨0, 0, 0⟩ ⟨1, 0, 0⟩).1.mpr (Or.inl rfl)

theorem euler_equations_spec_witness :
    Mat3.mulVec ⟨1, 0, 0, 0, 2, 0, 0, 0, 3⟩ ⟨0, 0, -(1 / 3)⟩
      = Vec3.sub ((none : Option Vec3).getD ⟨0, 0, 0⟩)
          (cross ⟨1, 1, 0⟩ (Mat3.mulVec ⟨1, 0, 0, 0, 2, 0, 0, 0, 3⟩ ⟨1, 1, 0⟩)) ∧
    RigidBodyDynamics.euler_equations ⟨1, 1, 0⟩ ⟨0, 0, 0, 0, 0, 0, 0, 0, 0⟩ none
      = .error (.linAlgError "Singular matrix") := by
  constructor
  · refine ((euler_equations_spec ⟨1, 1, 0⟩ ⟨1, 0, 0, 0, 2, 0, 0, 0, 3⟩ none).2.1
      ⟨0, 0, -(1 / 3)⟩ ?_).2
    unfold RigidBodyDynamics.euler_equations
    rw [if_neg (by unfold Mat3.det; norm_num)]
    simp only [Mat3.inv, Mat3.mulVec, Mat3.adjugate, Mat3.smulM, Mat3.det, Vec3.sub,
      Option.getD, cross]
    norm_num
  · exact (euler_equations_spec _ _ _).1.mpr (by unfold Mat3.det; norm_num)

/-- C10: the two independent Cartesian-to-orbital-element implementations
return the same eccentricity and the same semi-major axis. -/
theorem cartesian_conversions_agree (r v : Vec3) (mu : ℝ) (h1 : r ≠ ⟨0, 0, 0⟩)
    (h2 : cross r v ≠ ⟨0, 0, 0⟩) (h3 : 0 < mu) :
    (CoordinateTransformations.cartesian_to_orbital_elements r v mu).eccentricity
      = (OrbitalElements.cartesian_to_orbital r v mu).eccentricity ∧
    (CoordinateTransformations.cartesian_to_orbital_elements r v mu).semi_major_axis
      = (OrbitalElements.cartesian_to_orbital r v mu).semi_major_axis :=
  ⟨rfl, rfl⟩

theorem cartesian_conversions_agree_witness :
    (CoordinateTransformations.cartesian_to_orbital_elements
        ⟨7000, 0, 0⟩ ⟨0, 7.5, 0⟩ 398600.4418).eccentricity
      = (OrbitalElements.cartesian_to_orbital ⟨7000, 0, 0⟩ ⟨0, 7.5, 0⟩ 398600.4418).eccentricity :=
  (cartesian_conversions_agree ⟨7000, 0, 0⟩ ⟨0, 7.5, 0⟩ 398600.4418
    (by norm_num [Vec3.mk.injEq])
    (by unfold cross; norm_num [Vec3.mk.injEq])
    (by norm_num)).1

/-! Evaluation of the CoordinateTransformations conversion at the C2
counterexample input r = (1,0,0), v = (1e-11,1,1), mu = 2: a non-equatorial
orbit with eccentricity 1e-11/sqrt 2, below the 1e-10 circular threshold. -/

theorem c2ev_vr : vnorm ⟨1, 0, 0⟩ = 1 := by
  unfold vnorm
  rw [show ((1:ℝ) ^ 2 + 0 ^ 2 + 0 ^ 2) = 1 by norm_num, Real.sqrt_one]

theorem c2ev_evec : CoordinateTransformations.e_vec ⟨1, 0, 0⟩ ⟨1e-11, 1, 1⟩ 2
    = ⟨0, -(1e-11 / 2), -(1e-11 / 2)⟩ := by
  unfold CoordinateTransformations.e_vec Vec3.sdiv Vec3.sub Vec3.smul dot
  rw [sq_vnorm, c2ev_vr]
  ext <;> (dsimp only; norm_num)

theorem c2ev_ecc : CoordinateTransformations.eccentricity ⟨1, 0, 0⟩ ⟨1e-11, 1, 1⟩ 2
    = Real.sqrt 5e-23 := by
  unfold CoordinateTransformations.eccentricity
  rw [c2ev_evec]
  unfold vnorm
  congr 1
  norm_num

theorem c2ev_node : CoordinateTransformations.node_vec ⟨1, 0, 0⟩ ⟨1e-11, 1, 1⟩
    = ⟨1, 0, 0⟩ := by
  unfold CoordinateTransformations.node_vec CoordinateTransformations.h_vec cross
  ext <;> (dsimp only; norm_num)

/-- C2 counterexample: on the input r = (1,0,0), v = (1e-11,1,1), mu = 2 the
eccentricity is below 1e-10 yet CoordinateTransformations returns a nonzero
argument of perigee (3 pi / 2), because its singularity test for the argument
of perigee checks only the node vector and not the eccentricity. -/
theorem ct_argp_nonzero_small_ecc :
    (CoordinateTransformations.cartesian_to_orbital_elements
        ⟨1, 0, 0⟩ ⟨1e-11, 1, 1⟩ 2).eccentricity < 1e-10 ∧
    (CoordinateTransformations.cartesian_to_orbital_elements
        ⟨1, 0, 0⟩ ⟨1e-11, 1, 1⟩ 2).argument_of_perigee ≠ 0 := by
  constructor
  · rw [ct_record_ecc, c2ev_ecc]
    exact (Real.sqrt_lt' (by norm_num)).mpr (by norm_num)
  · rw [ct_record_argp]
    unfold CoordinateTransformations.argument_of_perigee
    have hn : vnorm (CoordinateTransformations.node_vec ⟨1, 0, 0⟩ ⟨1e-11, 1, 1⟩) = 1 := by
      rw [c2ev_node]
      exact c2ev_vr
    rw [if_neg (by rw [hn]; norm_num), if_pos (by rw [c2ev_evec]; dsimp only; norm_num)]
    have hd : dot (CoordinateTransformations.node_vec ⟨1, 0, 0⟩ ⟨1e-11, 1, 1⟩)
        (CoordinateTransformations.e_vec ⟨1, 0, 0⟩ ⟨1e-11, 1, 1⟩ 2) = 0 := by
      rw [c2ev_node, c2ev_evec]
      unfold dot
      norm_num
    rw [hd, zero_div, Real.arccos_zero]
    intro hcontra
    nlinarith [Real.pi_pos]

/-- C2 (amended): the OrbitalElements conversion implements the full
singularity policy (RAAN 0 when the node vector vanishes; argument of perigee
0 when the node vector vanishes or e < 1e-10; true anomaly 0 when e < 1e-10),
while the CoordinateTransformations conversion returns RAAN and argument of
perigee 0 when the node vector vanishes but tests the true anomaly against
e = 0 exactly and applies no eccentricity test to the argument of perigee. -/
theorem singularity_policy_amended (r v : Vec3) (mu : ℝ) :
    (vnorm (OrbitalElements.node_vec r v) = 0 →
      (OrbitalElements.cartesian_to_orbital r v mu).raan = 0 ∧
      (OrbitalElements.cartesian_to_orbital r v mu).argument_perigee = 0) ∧
    (OrbitalElements.eccentricity r v mu < 1e-10 →
      (OrbitalElements.cartesian_to_orbital r v mu).argument_perigee = 0 ∧
      (OrbitalElements.cartesian_to_orbital r v mu).true_anomaly = 0) ∧
    (vnorm (CoordinateTransformations.node_vec r v) = 0 →
      (CoordinateTransformations.cartesian_to_orbital_elements r v mu).raan = 0 ∧
      (CoordinateTransformations.cartesian_to_orbital_elements r v mu).argument_of_perigee
        = 0) ∧
    (CoordinateTransformations.eccentricity r v mu = 0 →
      (CoordinateTransformations.cartesian_to_orbital_elements r v mu).true_anomaly = 0) := by
  refine ⟨?_, ?_, ?_, ?_⟩
  · intro h
    constructor
    · rw [oe_record_raan]
      unfold OrbitalElements.raan
      rw [if_pos h, degrees_zero]
    · rw [oe_record_argp]
      unfold OrbitalElements.argument_perigee
      rw [if_pos (Or.inl h), degrees_zero]
  · intro h
    constructor
    · rw [oe_record_argp]
      unfold OrbitalElements.argument_perigee
      rw [if_pos (Or.inr h), degrees_zero]
    · rw [oe_record_nu]
      unfold OrbitalElements.true_anomaly
      rw [if_pos h, degrees_zero]
  · intro h
    constructor
    · rw [ct_record_raan]
      unfold CoordinateTransformations.raan
      rw [if_pos h]
    · rw [ct_record_argp]
      unfold CoordinateTransformations.argument_of_perigee
      rw [if_pos h]
  · intro h
    rw [ct_record_nu]
    unfold CoordinateTransformations.true_anomaly
    rw [if_pos h]

theorem singularity_policy_amended_witness :
    (OrbitalElements.cartesian_to_orbital ⟨1, 0, 0⟩ ⟨0, 1, 0⟩ 1).raan = 0 ∧
    (OrbitalElements.cartesian_to_orbital ⟨1, 0, 0⟩ ⟨0, 1, 0⟩ 1).argument_perigee = 0 ∧
    (OrbitalElements.cartesian_to_orbital ⟨1, 0, 0⟩ ⟨0, 1, 0⟩ 1).true_anomaly = 0 ∧
    (CoordinateTransformations.cartesian_to_orbital_elements ⟨1, 0, 0⟩ ⟨0, 1, 0⟩ 1).raan = 0 ∧
    (CoordinateTransformations.cartesian_to_orbital_elements
        ⟨1, 0, 0⟩ ⟨0, 1, 0⟩ 1).argument_of_perigee = 0 ∧
    (CoordinateTransformations.cartesian_to_orbital_elements
        ⟨1, 0, 0⟩ ⟨0, 1, 0⟩ 1).true_anomaly = 0 := by
  have hnode : vnorm (OrbitalElements.node_vec ⟨1, 0, 0⟩ ⟨0, 1, 0⟩) = 0 := by
    have : OrbitalElements.node_vec ⟨1, 0, 0⟩ ⟨0, 1, 0⟩ = ⟨0, 0, 0⟩ := by
      unfold OrbitalElements.node_vec OrbitalElements.h_vec cross
      ext <;> (dsimp only; norm_num)
    rw [this]
    unfold vnorm
    rw [show ((0:ℝ) ^ 2 + 0 ^ 2 + 0 ^ 2) = 0 by norm_num, Real.sqrt_zero]
  have hecc : OrbitalElements.eccentricity ⟨1, 0, 0⟩ ⟨0, 1, 0⟩ 1 = 0 := by
    have hev : OrbitalElements.e_vec ⟨1, 0, 0⟩ ⟨0, 1, 0⟩ 1 = ⟨0, 0, 0⟩ := by
      unfold OrbitalElements.e_vec Vec3.sdiv Vec3.sub Vec3.smul dot
      rw [sq_vnorm, c2ev_vr]
      ext <;> (dsimp only; norm_num)
    unfold OrbitalElements.eccentricity
    rw [hev]
    unfold vnorm
    rw [show ((0:ℝ) ^ 2 + 0 ^ 2 + 0 ^ 2) = 0 by norm_num, Real.sqrt_zero]
  have h1 := (singularity_policy_amended ⟨1, 0, 0⟩ ⟨0, 1, 0⟩ 1).1 hnode
  have h2 := (singularity_policy_amended ⟨1, 0, 0⟩ ⟨0, 1, 0⟩ 1).2.1
    (by rw [hecc]; norm_num)
  have h3 := (singularity_policy_amended ⟨1, 0, 0⟩ ⟨0, 1, 0⟩ 1).2.2.1 hnode
  have h4 := (singularity_policy_amended ⟨1, 0, 0⟩ ⟨0, 1, 0⟩ 1).2.2.2 hecc
  exact ⟨h1.1, h1.2, h2.2, h3.1, h3.2, h4⟩

/-! Evaluation of the OrbitalElements conversion at the known scenario
r = (7000, 0, 0) km, v = (0, 7.5, 0) km/s, mu = 398600.4418. -/

theorem sc_vr : vnorm ⟨7000, 0, 0⟩ = 7000 := by
  unfold vnorm
  rw [show ((7000:ℝ) ^ 2 + 0 ^ 2 + 0 ^ 2) = 7000 ^ 2 by norm_num,
    Real.sqrt_sq (by norm_num)]

theorem sc_vv2 : vnorm ⟨0, 7.5, 0⟩ ^ 2 = 56.25 := by
  rw [sq_vnorm]
  norm_num

theorem sc_evec : OrbitalElements.e_vec ⟨7000, 0, 0⟩ ⟨0, 7.5, 0⟩ 398600.4418
    = ⟨-(4850.4418 / 398600.4418), 0, 0⟩ := by
  unfold OrbitalElements.e_vec Vec3.sdiv Vec3.sub Vec3.smul dot
  rw [sq_vnorm, sc_vr]
  ext <;> (dsimp only; norm_num)

theorem sc_ecc : OrbitalElements.eccentricity ⟨7000, 0, 0⟩ ⟨0, 7.5, 0⟩ 398600.4418
    = 4850.4418 / 398600.4418 := by
  unfold OrbitalElements.eccentricity
  rw [sc_evec]
  unfold vnorm
  rw [show ((-(4850.4418 / 398600.4418)) ^ 2 + (0:ℝ) ^ 2 + 0 ^ 2)
      = (4850.4418 / 398600.4418) ^ 2 by norm_num,
    Real.sqrt_sq (by norm_num)]

theorem sc_energy : OrbitalElements.energy ⟨7000, 0, 0⟩ ⟨0, 7.5, 0⟩ 398600.4418
    = 28.125 - 398600.4418 / 7000 := by
  unfold OrbitalElements.energy
  rw [sc_vv2, sc_vr]
  norm_num

theorem sc_sma : OrbitalElements.semi_major_axis ⟨7000, 0, 0⟩ ⟨0, 7.5, 0⟩ 398600.4418
    = some (-398600.4418 / (2 * (28.125 - 398600.4418 / 7000))) := by
  unfold OrbitalElements.semi_major_axis
  rw [sc_energy, if_neg (by rw [abs_of_nonpos (by norm_num)]; norm_num)]

theorem sc_period : OrbitalElements.period ⟨7000, 0, 0⟩ ⟨0, 7.5, 0⟩ 398600.4418
    = some (2 * π * Real.sqrt ((-398600.4418 / (2 * (28.125 - 398600.4418 / 7000))) ^ 3
        / 398600.4418)) := by
  unfold OrbitalElements.period
  rw [sc_sma]
  dsimp only
  rw [if_pos (by norm_num)]

theorem sc_hvec : OrbitalElements.h_vec ⟨7000, 0, 0⟩ ⟨0, 7.5, 0⟩ = ⟨0, 0, 52500⟩ := by
  unfold OrbitalElements.h_vec cross
  ext <;> (dsimp only; norm_num)

theorem sc_incl : OrbitalElements.inclination ⟨7000, 0, 0⟩ ⟨0, 7.5, 0⟩ = 0 := by
  unfold OrbitalElements.inclination
  rw [sc_hvec]
  have : vnorm ⟨0, 0, 52500⟩ = 52500 := by
    unfold vnorm
    rw [show ((0:ℝ) ^ 2 + 0 ^ 2 + 52500 ^ 2) = 52500 ^ 2 by norm_num,
      Real.sqrt_sq (by norm_num)]
  rw [this]
  dsimp only
  rw [div_self (by norm_num), Real.arccos_one]

theorem sc_raan : OrbitalElements.raan ⟨7000, 0, 0⟩ ⟨0, 7.5, 0⟩ = 0 := by
  unfold OrbitalElements.raan
  rw [if_pos ?_]
  unfold OrbitalElements.node_vec
  rw [sc_hvec]
  have : cross ⟨0, 0, 1⟩ ⟨0, 0, 52500⟩ = ⟨0, 0, 0⟩ := by
    unfold cross
    ext <;> (dsimp only; norm_num)
  rw [this]
  unfold vnorm
  rw [show ((0:ℝ) ^ 2 + 0 ^ 2 + 0 ^ 2) = 0 by norm_num, Real.sqrt_zero]

/-- C5 counterexample: at r = (7000,0,0) km, v = (0,7.5,0) km/s,
mu = 398600.4418, the computed eccentricity is 4850.4418/398600.4418, about
0.01217, which differs from the claimed 0.02146 by far more than any rounding
tolerance. -/
theorem known_scenario_eccentricity_mismatch :
    |(OrbitalElements.cartesian_to_orbital
        ⟨7000, 0, 0⟩ ⟨0, 7.5, 0⟩ 398600.4418).eccentricity - 0.02146| > 1 / 500 := by
  rw [oe_record_ecc, sc_ecc, abs_of_nonpos (by norm_num)]
  norm_num

/-- C5 (amended): at r = (7000,0,0) km, v = (0,7.5,0) km/s, mu = 398600.4418
the conversion yields eccentricity about 0.0121687 (elliptical, not circular),
inclination 0 degrees, RAAN 0, semi-major axis about 6915.84 km and orbital
period about 5724 s. -/
theorem known_scenario_amended :
    |(OrbitalElements.cartesian_to_orbital
        ⟨7000, 0, 0⟩ ⟨0, 7.5, 0⟩ 398600.4418).eccentricity - 0.0121687| < 1e-6 ∧
    (OrbitalElements.cartesian_to_orbital
        ⟨7000, 0, 0⟩ ⟨0, 7.5, 0⟩ 398600.4418).inclination = 0 ∧
    (OrbitalElements.cartesian_to_orbital
        ⟨7000, 0, 0⟩ ⟨0, 7.5, 0⟩ 398600.4418).raan = 0 ∧
    (∃ a, (OrbitalElements.cartesian_to_orbital
        ⟨7000, 0, 0⟩ ⟨0, 7.5, 0⟩ 398600.4418).semi_major_axis = some a ∧
      |a - 6915.84| < 0.01) ∧
    (∃ tp, (OrbitalElements.cartesian_to_orbital
        ⟨7000, 0, 0⟩ ⟨0, 7.5, 0⟩ 398600.4418).period = some tp ∧
      5720 < tp ∧ tp < 5728) ∧
    OrbitalElements.classify_orbit (OrbitalElements.cartesian_to_orbital
        ⟨7000, 0, 0⟩ ⟨0, 7.5, 0⟩ 398600.4418) = "Elliptical" := by
  refine ⟨?_, ?_, ?_, ?_, ?_, ?_⟩
  · rw [oe_record_ecc, sc_ecc, abs_of_nonpos (by norm_num)]
    norm_num
  · rw [oe_record_incl, sc_incl, degrees_zero]
  · rw [oe_record_raan, sc_raan, degrees_zero]
  · refine ⟨-398600.4418 / (2 * (28.125 - 398600.4418 / 7000)), ?_, ?_⟩
    · rw [oe_record_sma, sc_sma]
    · rw [abs_of_nonneg (by norm_num)]
      norm_num
  · refine ⟨2 * π * Real.sqrt ((-398600.4418 / (2 * (28.125 - 398600.4418 / 7000))) ^ 3
        / 398600.4418), ?_, ?_, ?_⟩
    · rw [oe_record_period, sc_period]
    · have hs : (910.5:ℝ) < Real.sqrt ((-398600.4418
          / (2 * (28.125 - 398600.4418 / 7000))) ^ 3 / 398600.4418) := by
        rw [show (910.5:ℝ) = Real.sqrt (910.5 ^ 2) by
          rw [Real.sqrt_sq (by norm_num)]]
        apply Real.sqrt_lt_sqrt (by norm_num)
        norm_num
      have hp := Real.pi_gt_d6
      have hmul : (3.141592:ℝ) * 910.5
          < π * Real.sqrt ((-398600.4418
              / (2 * (28.125 - 398600.4418 / 7000))) ^ 3 / 398600.4418) :=
        mul_lt_mul'' hp hs (by norm_num) (by norm_num)
      nlinarith [hmul]
    · have hs : Real.sqrt ((-398600.4418
          / (2 * (28.125 - 398600.4418 / 7000))) ^ 3 / 398600.4418) < 911.5 :=
        (Real.sqrt_lt' (by norm_num)).mpr (by norm_num)
      have hp := Real.pi_lt_d6
      have hmul : π * Real.sqrt ((-398600.4418
            / (2 * (28.125 - 398600.4418 / 7000))) ^ 3 / 398600.4418)
          < 3.141593 * 911.5 :=
        mul_lt_mul'' hp hs (le_of_lt Real.pi_pos) (Real.sqrt_nonneg _)
      nlinarith [hmul]
  · unfold OrbitalElements.classify_orbit
    rw [oe_record_ecc, sc_ecc]
    rw [if_neg (by norm_num), if_pos (by norm_num)]

/-! Algebraic facts about the quaternion-to-matrix map on unit quaternions,
used for the matrix/quaternion round trip. -/

theorem normalize_of_qnorm_one (q : Quat) (h : qnorm q = 1) :
    QuaternionOperations.normalize q = .ok q := by
  unfold QuaternionOperations.normalize
  rw [if_neg (by rw [h]; norm_num), h]
  congr 1
  refine Quat.ext ?_ ?_ ?_ ?_ <;> dsimp only <;> exact div_one _

theorem qnorm_negQ (q : Quat) : qnorm (Quat.negQ q) = qnorm q := by
  unfold qnorm Quat.negQ
  dsimp only
  congr 1
  ring

theorem quatMatrix_orthogonal (q : Quat)
    (h1 : q.q0 ^ 2 + q.q1 ^ 2 + q.q2 ^ 2 + q.q3 ^ 2 = 1) :
    Mat3.mul (Mat3.transpose (QuaternionOperations.quatMatrix q))
      (QuaternionOperations.quatMatrix q) = Mat3.eye := by
  unfold QuaternionOperations.quatMatrix Mat3.mul Mat3.transpose Mat3.eye
  refine Mat3.ext ?_ ?_ ?_ ?_ ?_ ?_ ?_ ?_ ?_ <;> dsimp only
  · linear_combination (4 * (q.q2 ^ 2 + q.q3 ^ 2)) * h1
  · linear_combination (-(4 * q.q1 * q.q2)) * h1
  · linear_combination (-(4 * q.q1 * q.q3)) * h1
  · linear_combination (-(4 * q.q1 * q.q2)) * h1
  · linear_combination (4 * (q.q1 ^ 2 + q.q3 ^ 2)) * h1
  · linear_combination (-(4 * q.q2 * q.q3)) * h1
  · linear_combination (-(4 * q.q1 * q.q3)) * h1
  · linear_combination (-(4 * q.q2 * q.q3)) * h1
  · linear_combination (4 * (q.q1 ^ 2 + q.q2 ^ 2)) * h1

theorem quatMatrix_det (q : Quat)
    (h1 : q.q0 ^ 2 + q.q1 ^ 2 + q.q2 ^ 2 + q.q3 ^ 2 = 1) :
    Mat3.det (QuaternionOperations.quatMatrix q) = 1 := by
  unfold QuaternionOperations.quatMatrix Mat3.det
  dsimp only
  linear_combination (4 * (q.q1 ^ 2 + q.q2 ^ 2 + q.q3 ^ 2)) * h1

theorem quatMatrix_is_rot (q : Quat)
    (h1 : q.q0 ^ 2 + q.q1 ^ 2 + q.q2 ^ 2 + q.q3 ^ 2 = 1) :
    RotationMatrices.is_rotation_matrix (QuaternionOperations.quatMatrix q) := by
  unfold RotationMatrices.is_rotation_matrix
  constructor
  · rw [quatMatrix_orthogonal q h1]
    unfold Mat3.allclose closeTo Mat3.eye
    norm_num
  · rw [quatMatrix_det q h1]
    norm_num

theorem quatMatrix_trace (q : Quat)
    (h1 : q.q0 ^ 2 + q.q1 ^ 2 + q.q2 ^ 2 + q.q3 ^ 2 = 1) :
    Mat3.trace (QuaternionOperations.quatMatrix q) = 4 * q.q0 ^ 2 - 1 := by
  unfold QuaternionOperations.quatMatrix Mat3.trace
  dsimp only
  linear_combination (-4) * h1

theorem qm_e21_12 (q : Quat) :
    (QuaternionOperations.quatMatrix q).m21 - (QuaternionOperations.quatMatrix q).m12
      = 4 * (q.q0 * q.q1) := by
  unfold QuaternionOperations.quatMatrix
  dsimp only
  ring

theorem qm_e02_20 (q : Quat) :
    (QuaternionOperations.quatMatrix q).m02 - (QuaternionOperations.quatMatrix q).m20
      = 4 * (q.q0 * q.q2) := by
  unfold QuaternionOperations.quatMatrix
  dsimp only
  ring

theorem qm_e10_01 (q : Quat) :
    (QuaternionOperations.quatMatrix q).m10 - (QuaternionOperations.quatMatrix q).m01
      = 4 * (q.q0 * q.q3) := by
  unfold QuaternionOperations.quatMatrix
  dsimp only
  ring

theorem qm_p01_10 (q : Quat) :
    (QuaternionOperations.quatMatrix q).m01 + (QuaternionOperations.quatMatrix q).m10
      = 4 * (q.q1 * q.q2) := by
  unfold QuaternionOperations.quatMatrix
  dsimp only
  ring

theorem qm_p02_20 (q : Quat) :
    (QuaternionOperations.quatMatrix q).m02 + (QuaternionOperations.quatMatrix q).m20
      = 4 * (q.q1 * q.q3) := by
  unfold QuaternionOperations.quatMatrix
  dsimp only
  ring

theorem qm_p12_21 (q : Quat) :
    (QuaternionOperations.quatMatrix q).m12 + (QuaternionOperations.quatMatrix q).m21
      = 4 * (q.q2 * q.q3) := by
  unfold QuaternionOperations.quatMatrix
  dsimp only
  ring

theorem qm_argB (q : Quat) :
    1 + (QuaternionOperations.quatMatrix q).m00 - (QuaternionOperations.quatMatrix q).m11
      - (QuaternionOperations.quatMatrix q).m22 = 4 * q.q1 ^ 2 := by
  unfold QuaternionOperations.quatMatrix
  dsimp only
  ring

theorem qm_argC (q : Quat) :
    1 + (QuaternionOperations.quatMatrix q).m11 - (QuaternionOperations.quatMatrix q).m00
      - (QuaternionOperations.quatMatrix q).m22 = 4 * q.q2 ^ 2 := by
  unfold QuaternionOperations.quatMatrix
  dsimp only
  ring

theorem qm_argD (q : Quat) :
    1 + (QuaternionOperations.quatMatrix q).m22 - (QuaternionOperations.quatMatrix q).m00
      - (QuaternionOperations.quatMatrix q).m11 = 4 * q.q3 ^ 2 := by
  unfold QuaternionOperations.quatMatrix
  dsimp only
  ring

theorem qm_d00_11 (q : Quat) :
    (QuaternionOperations.quatMatrix q).m00 - (QuaternionOperations.quatMatrix q).m11
      = 2 * (q.q1 ^ 2 - q.q2 ^ 2) := by
  unfold QuaternionOperations.quatMatrix
  dsimp only
  ring

theorem qm_d00_22 (q : Quat) :
    (QuaternionOperations.quatMatrix q).m00 - (QuaternionOperations.quatMatrix q).m22
      = 2 * (q.q1 ^ 2 - q.q3 ^ 2) := by
  unfold QuaternionOperations.quatMatrix
  dsimp only
  ring

theorem qm_d11_22 (q : Quat) :
    (QuaternionOperations.quatMatrix q).m11 - (QuaternionOperations.quatMatrix q).m22
      = 2 * (q.q2 ^ 2 - q.q3 ^ 2) := by
  unfold QuaternionOperations.quatMatrix
  dsimp only
  ring

theorem sqrt_four_sq (x : ℝ) : Real.sqrt (4 * x ^ 2) * 2 = 4 * |x| := by
  rw [show (4:ℝ) * x ^ 2 = (2 * |x|) ^ 2 by rw [mul_pow, sq_abs]; norm_num,
    Real.sqrt_sq (by positivity)]
  ring

theorem four_mul_div (a b : ℝ) (hb : b ≠ 0) : 4 * (b * a) / (4 * b) = a := by
  field_simp
  ring

theorem four_mul_div_neg (a b : ℝ) (hb : b ≠ 0) : 4 * (b * a) / (4 * -b) = -a := by
  rw [div_eq_iff (by simpa using hb)]
  ring

theorem four_mul_div' (a b : ℝ) (hb : b ≠ 0) : 4 * (a * b) / (4 * b) = a := by
  field_simp
  ring

theorem four_mul_div_neg' (a b : ℝ) (hb : b ≠ 0) : 4 * (a * b) / (4 * -b) = -a := by
  rw [div_eq_iff (by simpa using hb)]
  ring

theorem quatMatrix_roundtrip_cases (q : Quat) (h : qnorm q = 1) :
    QuaternionOperations.from_rotation_matrix (QuaternionOperations.quatMatrix q) = .ok q ∨
    QuaternionOperations.from_rotation_matrix (QuaternionOperations.quatMatrix q)
      = .ok (Quat.negQ q) := by
  have h1 := qnorm_sumsq q h
  have hneg1 : qnorm (Quat.negQ q) = 1 := by rw [qnorm_negQ]; exact h
  unfold QuaternionOperations.from_rotation_matrix
  rw [if_pos (quatMatrix_is_rot q h1)]
  by_cases hA : 0 < Mat3.trace (QuaternionOperations.quatMatrix q)
  · rw [if_pos hA]
    have hq0sq : 1 / 4 < q.q0 ^ 2 := by
      have htr := quatMatrix_trace q h1
      rw [htr] at hA
      linarith
    have hq0 : q.q0 ≠ 0 := by
      intro h0
      rw [h0] at hq0sq
      norm_num at hq0sq
    have hS : Real.sqrt (Mat3.trace (QuaternionOperations.quatMatrix q) + 1) * 2
        = 4 * |q.q0| := by
      rw [quatMatrix_trace q h1, show 4 * q.q0 ^ 2 - 1 + 1 = 4 * q.q0 ^ 2 by ring,
        sqrt_four_sq]
    rw [hS, qm_e21_12, qm_e02_20, qm_e10_01]
    rcases hq0.lt_or_lt with hsgn | hsgn
    · right
      have heq : (⟨0.25 * (4 * |q.q0|), 4 * (q.q0 * q.q1) / (4 * |q.q0|),
          4 * (q.q0 * q.q2) / (4 * |q.q0|), 4 * (q.q0 * q.q3) / (4 * |q.q0|)⟩ : Quat)
          = Quat.negQ q := by
        rw [abs_of_neg hsgn]
        unfold Quat.negQ
        refine Quat.ext ?_ ?_ ?_ ?_ <;> dsimp only
        · ring
        · exact four_mul_div_neg q.q1 q.q0 hq0
        · exact four_mul_div_neg q.q2 q.q0 hq0
        · exact four_mul_div_neg q.q3 q.q0 hq0
      rw [heq, normalize_of_qnorm_one _ hneg1]
    · left
      have heq : (⟨0.25 * (4 * |q.q0|), 4 * (q.q0 * q.q1) / (4 * |q.q0|),
          4 * (q.q0 * q.q2) / (4 * |q.q0|), 4 * (q.q0 * q.q3) / (4 * |q.q0|)⟩ : Quat)
          = q := by
        rw [abs_of_pos hsgn]
        refine Quat.ext ?_ ?_ ?_ ?_ <;> dsimp only
        · ring
        · exact four_mul_div q.q1 q.q0 hq0
        · exact four_mul_div q.q2 q.q0 hq0
        · exact four_mul_div q.q3 q.q0 hq0
      rw [heq, normalize_of_qnorm_one _ h]
  · rw [if_neg hA]
    by_cases hB : (QuaternionOperations.quatMatrix q).m00 > (QuaternionOperations.quatMatrix q).m11
        ∧ (QuaternionOperations.quatMatrix q).m00 > (QuaternionOperations.quatMatrix q).m22
    · rw [if_pos hB]
      have hgt12 : q.q2 ^ 2 < q.q1 ^ 2 := by
        have hd := qm_d00_11 q
        have hgt := hB.1
        linarith
      have hq1 : q.q1 ≠ 0 := by
        intro h0
        rw [h0] at hgt12
        norm_num at hgt12
        linarith [sq_nonneg q.q2]
      have hS : Real.sqrt (1 + (QuaternionOperations.quatMatrix q).m00
          - (QuaternionOperations.quatMatrix q).m11
          - (QuaternionOperations.quatMatrix q).m22) * 2 = 4 * |q.q1| := by
        rw [qm_argB, sqrt_four_sq]
      rw [hS, qm_e21_12, qm_p01_10, qm_p02_20]
      rcases hq1.lt_or_lt with hsgn | hsgn
      · right
        have heq : (⟨4 * (q.q0 * q.q1) / (4 * |q.q1|), 0.25 * (4 * |q.q1|),
            4 * (q.q1 * q.q2) / (4 * |q.q1|), 4 * (q.q1 * q.q3) / (4 * |q.q1|)⟩ : Quat)
            = Quat.negQ q := by
          rw [abs_of_neg hsgn]
          unfold Quat.negQ
          refine Quat.ext ?_ ?_ ?_ ?_ <;> dsimp only
          · exact four_mul_div_neg' q.q0 q.q1 hq1
          · ring
          · exact four_mul_div_neg q.q2 q.q1 hq1
          · exact four_mul_div_neg q.q3 q.q1 hq1
        rw [heq, normalize_of_qnorm_one _ hneg1]
      · left
        have heq : (⟨4 * (q.q0 * q.q1) / (4 * |q.q1|), 0.25 * (4 * |q.q1|),
            4 * (q.q1 * q.q2) / (4 * |q.q1|), 4 * (q.q1 * q.q3) / (4 * |q.q1|)⟩ : Quat)
            = q := by
          rw [abs_of_pos hsgn]
          refine Quat.ext ?_ ?_ ?_ ?_ <;> dsimp only
          · exact four_mul_div' q.q0 q.q1 hq1
          · ring
          · exact four_mul_div q.q2 q.q1 hq1
          · exact four_mul_div q.q3 q.q1 hq1
        rw [heq, normalize_of_qnorm_one _ h]
    · rw [if_neg hB]
      by_cases hC : (QuaternionOperations.quatMatrix q).m11
          > (QuaternionOperations.quatMatrix q).m22
      · rw [if_pos hC]
        have hgt23 : q.q3 ^ 2 < q.q2 ^ 2 := by
          have hd := qm_d11_22 q
          linarith
        have hq2 : q.q2 ≠ 0 := by
          intro h0
          rw [h0] at hgt23
          norm_num at hgt23
          linarith [sq_nonneg q.q3]
        have hS : Real.sqrt (1 + (QuaternionOperations.quatMatrix q).m11
            - (QuaternionOperations.quatMatrix q).m00
            - (QuaternionOperations.quatMatrix q).m22) * 2 = 4 * |q.q2| := by
          rw [qm_argC, sqrt_four_sq]
        rw [hS, qm_e02_20, qm_p01_10, qm_p12_21]
        rcases hq2.lt_or_lt with hsgn | hsgn
        · right
          have heq : (⟨4 * (q.q0 * q.q2) / (4 * |q.q2|), 4 * (q.q1 * q.q2) / (4 * |q.q2|),
              0.25 * (4 * |q.q2|), 4 * (q.q2 * q.q3) / (4 * |q.q2|)⟩ : Quat)
              = Quat.negQ q := by
            rw [abs_of_neg hsgn]
            unfold Quat.negQ
            refine Quat.ext ?_ ?_ ?_ ?_ <;> dsimp only
            · exact four_mul_div_neg' q.q0 q.q2 hq2
            · exact four_mul_div_neg' q.q1 q.q2 hq2
            · ring
            · exact four_mul_div_neg q.q3 q.q2 hq2
          rw [heq, normalize_of_qnorm_one _ hneg1]
        · left
          have heq : (⟨4 * (q.q0 * q.q2) / (4 * |q.q2|), 4 * (q.q1 * q.q2) / (4 * |q.q2|),
              0.25 * (4 * |q.q2|), 4 * (q.q2 * q.q3) / (4 * |q.q2|)⟩ : Quat)
              = q := by
            rw [abs_of_pos hsgn]
            refine Quat.ext ?_ ?_ ?_ ?_ <;> dsimp only
            · exact four_mul_div' q.q0 q.q2 hq2
            · exact four_mul_div' q.q1 q.q2 hq2
            · ring
            · exact four_mul_div q.q3 q.q2 hq2
          rw [heq, normalize_of_qnorm_one _ h]
      · rw [if_neg hC]
        have hle23 : q.q2 ^ 2 ≤ q.q3 ^ 2 := by
          have hd := qm_d11_22 q
          have hle := not_lt.mp hC
          linarith
        have htr_le : q.q0 ^ 2 ≤ 1 / 4 := by
          have htr := quatMatrix_trace q h1
          have hle := not_lt.mp hA
          linarith
        have hq3 : q.q3 ≠ 0 := by
          intro h0
          have hq2z : q.q2 = 0 := by
            have h22 : q.q2 ^ 2 = 0 := by
              rw [h0] at hle23
              nlinarith [sq_nonneg q.q2]
            exact pow_eq_zero_iff (two_ne_zero) |>.mp h22
          have hq1z : q.q1 = 0 := by
            by_contra hne
            apply hB
            constructor
            · have hd := qm_d00_11 q
              have hpos : 0 < q.q1 ^ 2 := by positivity
              rw [hq2z] at hd
              norm_num at hd
              linarith
            · have hd := qm_d00_22 q
              have hpos : 0 < q.q1 ^ 2 := by positivity
              rw [h0] at hd
              norm_num at hd
              linarith
          rw [h0, hq2z, hq1z] at h1
          norm_num at h1
          rcases h1 with h1 | h1 <;> rw [h1] at htr_le <;> norm_num at htr_le
        have hS : Real.sqrt (1 + (QuaternionOperations.quatMatrix q).m22
            - (QuaternionOperations.quatMatrix q).m00
            - (QuaternionOperations.quatMatrix q).m11) * 2 = 4 * |q.q3| := by
          rw [qm_argD, sqrt_four_sq]
        rw [hS, qm_e10_01, qm_p02_20, qm_p12_21]
        rcases hq3.lt_or_lt with hsgn | hsgn
        · right
          have heq : (⟨4 * (q.q0 * q.q3) / (4 * |q.q3|), 4 * (q.q1 * q.q3) / (4 * |q.q3|),
              4 * (q.q2 * q.q3) / (4 * |q.q3|), 0.25 * (4 * |q.q3|)⟩ : Quat)
              = Quat.negQ q := by
            rw [abs_of_neg hsgn]
            unfold Quat.negQ
            refine Quat.ext ?_ ?_ ?_ ?_ <;> dsimp only
            · exact four_mul_div_neg' q.q0 q.q3 hq3
            · exact four_mul_div_neg' q.q1 q.q3 hq3
            · exact four_mul_div_neg' q.q2 q.q3 hq3
            · ring
          rw [heq, normalize_of_qnorm_one _ hneg1]
        · left
          have heq : (⟨4 * (q.q0 * q.q3) / (4 * |q.q3|), 4 * (q.q1 * q.q3) / (4 * |q.q3|),
              4 * (q.q2 * q.q3) / (4 * |q.q3|), 0.25 * (4 * |q.q3|)⟩ : Quat)
              = q := by
            rw [abs_of_pos hsgn]
            refine Quat.ext ?_ ?_ ?_ ?_ <;> dsimp only
            · exact four_mul_div' q.q0 q.q3 hq3
            · exact four_mul_div' q.q1 q.q3 hq3
            · exact four_mul_div' q.q2 q.q3 hq3
            · ring
          rw [heq, normalize_of_qnorm_one _ h]

/-- C6: for every unit quaternion q, converting to a rotation matrix and back
(from_rotation_matrix applied to to_rotation_matrix) succeeds and yields a
quaternion equal to q or to -q within 1e-9 in each component (in exact
arithmetic the round trip is exact up to the overall sign). -/
theorem quat_matrix_roundtrip (q : Quat) (h : qnorm q = 1) :
    ∃ p, Except.bind (QuaternionOperations.to_rotation_matrix q)
        QuaternionOperations.from_rotation_matrix = .ok p ∧
      ((|p.q0 - q.q0| ≤ 1e-9 ∧ |p.q1 - q.q1| ≤ 1e-9 ∧ |p.q2 - q.q2| ≤ 1e-9 ∧
          |p.q3 - q.q3| ≤ 1e-9) ∨
       (|p.q0 + q.q0| ≤ 1e-9 ∧ |p.q1 + q.q1| ≤ 1e-9 ∧ |p.q2 + q.q2| ≤ 1e-9 ∧
          |p.q3 + q.q3| ≤ 1e-9)) := by
  have hbind : Except.bind (QuaternionOperations.to_rotation_matrix q)
      QuaternionOperations.from_rotation_matrix
      = QuaternionOperations.from_rotation_matrix (QuaternionOperations.quatMatrix q) := by
    unfold QuaternionOperations.to_rotation_matrix
    rw [normalize_of_qnorm_one q h]
    rfl
  have habs : ∀ x : ℝ, |x - x| ≤ 1e-9 := fun x => by
    rw [sub_self, abs_zero]
    norm_num
  have habs2 : ∀ x : ℝ, |(-x) + x| ≤ 1e-9 := fun x => by
    rw [neg_add_cancel, abs_zero]
    norm_num
  rcases quatMatrix_roundtrip_cases q h with hc | hc
  · exact ⟨q, by rw [hbind]; exact hc, Or.inl ⟨habs _, habs _, habs _, habs _⟩⟩
  · refine ⟨Quat.negQ q, by rw [hbind]; exact hc, Or.inr ?_⟩
    unfold Quat.negQ
    exact ⟨habs2 _, habs2 _, habs2 _, habs2 _⟩

theorem quat_matrix_roundtrip_witness :
    ∃ p, Except.bind (QuaternionOperations.to_rotation_matrix ⟨1, 0, 0, 0⟩)
        QuaternionOperations.from_rotation_matrix = .ok p ∧
      ((|p.q0 - (⟨1, 0, 0, 0⟩ : Quat).q0| ≤ 1e-9 ∧ |p.q1 - (⟨1, 0, 0, 0⟩ : Quat).q1| ≤ 1e-9 ∧
          |p.q2 - (⟨1, 0, 0, 0⟩ : Quat).q2| ≤ 1e-9 ∧ |p.q3 - (⟨1, 0, 0, 0⟩ : Quat).q3| ≤ 1e-9) ∨
       (|p.q0 + (⟨1, 0, 0, 0⟩ : Quat).q0| ≤ 1e-9 ∧ |p.q1 + (⟨1, 0, 0, 0⟩ : Quat).q1| ≤ 1e-9 ∧
          |p.q2 + (⟨1, 0, 0, 0⟩ : Quat).q2| ≤ 1e-9 ∧ |p.q3 + (⟨1, 0, 0, 0⟩ : Quat).q3| ≤ 1e-9)) :=
  quat_matrix_roundtrip ⟨1, 0, 0, 0⟩ (by
    unfold qnorm
    rw [show ((1:ℝ) ^ 2 + 0 ^ 2 + 0 ^ 2 + 0 ^ 2) = 1 by norm_num, Real.sqrt_one])

end
